import Mathlib

/-!
Verification development for the mach weekly planner.

The repository holds two generations of the project: the current Rust
terminal planner (described by SPEC.md and the reference documentation)
and an earlier Svelte/InstantDB web prototype (instant.schema.ts,
instant.perms.ts, src/lib/instant.ts, src/routes).  The TypeScript
prototype is embedded directly from its source files.  The domain core
of the planner (items, rollover, ordering, resolver, interaction state
machine) is embedded from the specification documents, since only the
design documents of that part are in the tree.
-/

namespace Mach

/-! ## Data model (Modelled from the spec: SPEC.md Core Concepts, spec section 3). -/

/-- Item status, Pending or Done. -/
inductive Status where
  | Pending
  | Done
deriving DecidableEq

/-- Boolean test for Pending. -/
def isPending : Status → Bool
  | .Pending => true
  | .Done => false

/-- Boolean test for Done. -/
def isDone : Status → Bool
  | .Pending => false
  | .Done => true

/-- Rank used for status-ascending sort: Pending before Done. -/
def statusRank : Status → Nat
  | .Pending => 0
  | .Done => 1

/-- Modelled from the spec: the Item (todo) record of section 3 of the
design document.  Dates are day numbers, identifiers are numbers. -/
structure Item where
  id : Nat
  title : String
  status : Status
  scheduled_for : Option Nat
  order_index : Int
  backlog_column : Nat
  notes : Option String
  workspace_id : Option Nat
  project_id : Option Nat
deriving DecidableEq

/-- Project status: pending, done or permanent. -/
inductive ProjStatus where
  | Pending
  | Done
  | Permanent
deriving DecidableEq

/-- Modelled from the spec: the Project record, with a required and
immutable workspace reference. -/
structure Project where
  id : Nat
  name : String
  workspace_id : Nat
  status : ProjStatus
deriving DecidableEq

/-- Modelled from the spec: the Workspace record. -/
structure Workspace where
  id : Nat
  name : String
deriving DecidableEq

/-- Week start preference of the Config singleton. -/
inductive WeekStart where
  | Monday
  | Sunday
deriving DecidableEq

/-- Modelled from the spec: the Config singleton row. -/
structure MachConfig where
  week_start : WeekStart
  auto_rollover : Bool
deriving DecidableEq

/-- The item store: items, projects and workspaces held by the
transactional store. -/
structure Store where
  items : List Item
  projects : List Project
  workspaces : List Workspace
deriving DecidableEq

/-- Typed failures of the domain service (spec section 7). -/
inductive DomainError where
  | ValidationError
  | NotFoundError
  | AmbiguousReferenceError (count : Nat)
  | ConflictError
deriving DecidableEq

/-! ## Svelte prototype: todo rows (src/lib/instant.ts, src/routes/todos). -/

/-- A todo row of the InstantDB schema in instant.schema.ts: text, done,
optional date, optional list, group and assignee references, and the
optional team link added by transactions. -/
structure TodoRow where
  text : String
  done : Bool
  date : Option Nat
  listId : Option Nat
  groupId : Option Nat
  assigneeId : Option Nat
  teamLink : Option String
deriving DecidableEq

/-- Todo.create from src/lib/instant.ts: writes the given text with
done set to false and every optional reference cleared. -/
def Todo.create (text : String) : TodoRow :=
  { text := text
    done := false
    assigneeId := none
    date := none
    groupId := none
    listId := none
    teamLink := none }

/-- The earlier todo row shape of src/unnamed/part_000: text, done and
a creation timestamp. -/
structure TodoRowV0 where
  text : String
  done : Bool
  createdAt : Nat
deriving DecidableEq

/-- Todo.create from src/unnamed/part_003: writes the given text with
done set to false and createdAt set to the current time. -/
def Todo.createV0 (text : String) (now : Nat) : TodoRowV0 :=
  { text := text, done := false, createdAt := now }

/-- createTodo from src/routes/todos/+page.svelte: writes the typed
text with done set to false, date given by the JavaScript expression
todoDate || Date.now() — the current time when the date field is empty
or zero — and links the todo to the selected team. -/
def createTodo (todoText : String) (todoDate : Option Nat) (now : Nat)
    (teamId : String) : TodoRow :=
  { text := todoText
    done := false
    date := some (match todoDate with
      | none => now
      | some d => if d = 0 then now else d)
    listId := none
    groupId := none
    assigneeId := none
    teamLink := some teamId }

/-! ## Svelte prototype: permission rules (instant.perms.ts, teams). -/

/-- The auth context of a permission check: user id and email. -/
structure Auth where
  id : String
  email : String
deriving DecidableEq

/-- The fields of a teams row in instant.schema.ts. -/
structure TeamRow where
  creatorId : String
  isDefault : Bool
  name : String
deriving DecidableEq

/-- The isMember binding of the teams rules in instant.perms.ts:
auth.id is among the userId values of the memberships of the team. -/
def teams.isMember (memberUserIds : List String) (a : Auth) : Bool :=
  memberUserIds.contains a.id

/-- The teams update rule of instant.perms.ts: isMember, and newData
keeps creatorId and isDefault equal to data. -/
def teams.updateAllowed (a : Auth) (memberUserIds : List String)
    (data newData : TeamRow) : Bool :=
  teams.isMember memberUserIds a
    && decide (data.creatorId = newData.creatorId)
    && decide (data.isDefault = newData.isDefault)

/-- The teams delete rule of instant.perms.ts: isCreator and not
isDefault. -/
def teams.deleteAllowed (a : Auth) (data : TeamRow) : Bool :=
  decide (a.id = data.creatorId) && !data.isDefault

/-! ## Rollover engine (Modelled from the spec: spec section 4.2 and
SPEC.md Behavioral Rules item 4). -/

/-- Comparison of items by ascending order_index. -/
def idxLE (a b : Item) : Prop :=
  a.order_index ≤ b.order_index

instance : DecidableRel idxLE :=
  fun a b => Int.decLe a.order_index b.order_index

instance : IsTotal Item idxLE :=
  ⟨fun a b => le_total a.order_index b.order_index⟩

instance : IsTrans Item idxLE :=
  ⟨fun _ _ _ h1 h2 => le_trans h1 h2⟩

/-- Modelled from the spec: the overdue predicate of the rollover
engine — status Pending and a scheduled date strictly earlier than
today.  Backlog items (no date) never match. -/
def overdue (today : Nat) (it : Item) : Bool :=
  isPending it.status
    && (match it.scheduled_for with
      | some d => decide (d < today)
      | none => false)

/-- Items the rollover engine must not touch: Backlog items (no
scheduled date) and Done items. -/
def exempt (it : Item) : Bool :=
  it.scheduled_for.isNone || isDone it.status

/-- Modelled from the spec: the maximum order_index of the Pending
items already scheduled for today, the base below which rolled items
are appended. -/
def todaysMaxOrder (today : Nat) (items : List Item) : Int :=
  ((items.filter (fun it =>
      isPending it.status && decide (it.scheduled_for = some today))).map
    (fun it => it.order_index)).foldr max 0

/-- Modelled from the spec: reschedule a run of items to today,
assigning strictly increasing order_index values above the given
base, preserving the relative order of the list. -/
def assignFrom (today : Nat) : Int → List Item → List Item
  | _, [] => []
  | b, it :: rest =>
    { it with scheduled_for := some today, order_index := b + 1 }
      :: assignFrom today (b + 1) rest

/-! ## Listing and ordering (Modelled from the spec: spec section 4.1,
SPEC.md Ordering / Visibility). -/

/-- Sort order of listings: status ascending, so Pending precedes
Done, then order_index ascending within each status. -/
def itemLE (a b : Item) : Prop :=
  statusRank a.status < statusRank b.status
    ∨ (statusRank a.status = statusRank b.status ∧ a.order_index ≤ b.order_index)

instance : DecidableRel itemLE := fun a b => by
  unfold itemLE
  infer_instance

instance : IsTotal Item itemLE := ⟨by
  intro a b
  unfold itemLE
  omega⟩

instance : IsTrans Item itemLE := ⟨by
  intro a b c
  unfold itemLE
  omega⟩

/-- The filters accepted by list_items. -/
inductive ListFilter where
  | todayF (d : Nat)
  | backlogF
  | doneF
  | byWorkspace (w : Nat)
  | byProject (p : Nat)
deriving DecidableEq

/-- Which items a filter selects. -/
def matchesFilter : ListFilter → Item → Bool
  | .todayF d, it => decide (it.scheduled_for = some d)
  | .backlogF, it => it.scheduled_for.isNone
  | .doneF, it => isDone it.status
  | .byWorkspace w, it => decide (it.workspace_id = some w)
  | .byProject p, it => decide (it.project_id = some p)

/-- Modelled from the spec: list_items returns the filtered items as
an ordered sequence, sorted by status ascending (Pending before Done)
then order_index ascending within each status. -/
def list_items (f : ListFilter) (s : Store) : List Item :=
  List.insertionSort itemLE (s.items.filter (matchesFilter f))

/-! ## Completion (Modelled from the spec: spec section 4.1 complete
and reopen, SPEC.md Behavioral Rules item 5). -/

/-- The per-item effect of complete: matching items become Done, and a
Backlog item (no date) additionally receives today as its date. -/
def completeItem (today iid : Nat) (it : Item) : Item :=
  if it.id = iid then
    { it with
      status := Status.Done,
      scheduled_for := some (it.scheduled_for.getD today) }
  else it

/-- Modelled from the spec: complete marks the item Done, and gives a
Backlog item today as its scheduled date. -/
def complete (today iid : Nat) (s : Store) : Store :=
  { s with items := s.items.map (completeItem today iid) }

/-- The per-item effect of reopen: matching items become Pending; the
scheduled date is left untouched. -/
def reopenItem (iid : Nat) (it : Item) : Item :=
  if it.id = iid then { it with status := Status.Pending } else it

/-- Modelled from the spec: reopen marks the item Pending again and
never clears its scheduled date. -/
def reopen (iid : Nat) (s : Store) : Store :=
  { s with items := s.items.map (reopenItem iid) }

/-! ## Adding items (Modelled from the spec: spec section 4.1
add_item, SPEC.md Behavioral Rules 1 and 2). -/

/-- The destination column of a new or moved item: a calendar day or
one of the four backlog columns. -/
inductive Target where
  | date (d : Nat)
  | backlog (c : Nat)
deriving DecidableEq

/-- Membership of an item in a target column. -/
def inColumn : Target → Item → Bool
  | .date d, it => decide (it.scheduled_for = some d)
  | .backlog c, it => it.scheduled_for.isNone && decide (it.backlog_column = c)

/-- The minimum order_index currently present in a target column,
bounded above by zero so an empty column still yields a top slot. -/
def columnMinOrder (t : Target) (items : List Item) : Int :=
  ((items.filter (inColumn t)).map (fun it => it.order_index)).foldr min 0

/-- The freshly created item of add_item: Pending, placed in the
target column with an order_index below the current column minimum. -/
def newItem (title : String) (t : Target) (wsid pjid : Option Nat)
    (nid : Nat) (items : List Item) : Item :=
  { id := nid
    title := title
    status := Status.Pending
    scheduled_for := match t with | .date d => some d | .backlog _ => none
    order_index := columnMinOrder t items - 1
    backlog_column := match t with | .date _ => 0 | .backlog c => c
    notes := none
    workspace_id := wsid
    project_id := pjid }

/-- Look a project up by identifier. -/
def findProject (s : Store) (pid : Nat) : Option Project :=
  s.projects.find? (fun p => p.id == pid)

/-- The successful branch of add_item: the new item is prepended to
the item table and returned. -/
def addOk (title : String) (t : Target) (wsid pjid : Option Nat)
    (nid : Nat) (s : Store) : Except DomainError (Item × Store) :=
  Except.ok (newItem title t wsid pjid nid s.items,
    { s with items := newItem title t wsid pjid nid s.items :: s.items })

/-- Modelled from the spec: add_item fails with ValidationError on an
empty title before any store mutation; otherwise it creates a Pending
item at the top of the target column.  A project reference is looked
up so the new item inherits the project workspace; a workspace that
contradicts the given project fails with ConflictError. -/
def add_item (title : String) (t : Target) (ws pj : Option Nat)
    (nid : Nat) (s : Store) : Except DomainError (Item × Store) :=
  if title = "" then Except.error DomainError.ValidationError
  else
    match pj with
    | none => addOk title t ws none nid s
    | some pid =>
      match findProject s pid with
      | none => Except.error DomainError.NotFoundError
      | some p =>
        match ws with
        | none => addOk title t (some p.workspace_id) (some pid) nid s
        | some wid =>
          if wid = p.workspace_id then addOk title t (some wid) (some pid) nid s
          else Except.error DomainError.ConflictError

/-! ## Hierarchy resolver (Modelled from the spec: spec section 4.3;
CHANGELOG 0.3.0, done and delete by title or id). -/

/-- Decimal digit test on a character. -/
def isDigitChar (c : Char) : Bool :=
  decide (48 ≤ c.toNat) && decide (c.toNat ≤ 57)

/-- Accumulating decimal parse of a character list; any non-digit
character rejects the whole reference. -/
def parseIdAux : List Char → Nat → Option Nat
  | [], acc => some acc
  | c :: cs, acc =>
    if isDigitChar c then parseIdAux cs (acc * 10 + (c.toNat - 48)) else none

/-- Modelled from the spec: stands in for the exact UUID parse of a
user-supplied reference, here a numeric identifier parse. -/
def parseId (ref : String) : Option Nat :=
  match ref.data with
  | [] => none
  | cs => parseIdAux cs 0

/-- The items whose title matches the reference, case-sensitively. -/
def titleMatches (ref : String) (items : List Item) : List Item :=
  items.filter (fun it => decide (it.title = ref))

/-- Modelled from the spec: name lookup — zero matches is
NotFoundError, exactly one match resolves to that identity, several
matches is AmbiguousReferenceError naming the count; a match is never
picked automatically. -/
def resolveByTitle (ref : String) (items : List Item) :
    Except DomainError Nat :=
  match titleMatches ref items with
  | [] => Except.error DomainError.NotFoundError
  | [it] => Except.ok it.id
  | ms => Except.error (DomainError.AmbiguousReferenceError ms.length)

/-- Modelled from the spec: full resolution — an exact identifier
parse is attempted first, and the title lookup is used when the
reference is not an identifier of a present item. -/
def resolve_item (ref : String) (items : List Item) :
    Except DomainError Nat :=
  match parseId ref with
  | some n =>
    if items.any (fun it => it.id == n) then Except.ok n
    else resolveByTitle ref items
  | none => resolveByTitle ref items

/-- The done command of the CLI surface: resolve the reference, then
complete the resolved item; on a resolution failure the store is
returned unchanged beside the error. -/
def done_command (today : Nat) (ref : String) (s : Store) :
    Store × Option DomainError :=
  match resolve_item ref s.items with
  | Except.ok iid => (complete today iid s, none)
  | Except.error e => (s, some e)

/-! ## Updates and the ownership invariant (Modelled from the spec:
spec section 4.1 update_item and section 3 Item invariant;
how-it-works.md Workspaces and Projects). -/

/-- The partial update accepted by update_item; scheduled_for carries
an inner Option so a date can be set or cleared. -/
structure ItemUpdate where
  title : Option String
  scheduled_for : Option (Option Nat)
  notes : Option String
  workspace : Option Nat
  project : Option Nat
deriving DecidableEq

/-- The non-ownership part of an update: title, date and notes. -/
def applyBasic (it : Item) (u : ItemUpdate) : Item :=
  { it with
    title := u.title.getD it.title,
    scheduled_for := u.scheduled_for.getD it.scheduled_for,
    notes := (match u.notes with | none => it.notes | some n => some n) }

/-- The ownership part of an update: assigning a project without a
workspace inherits the project workspace; a workspace that differs
from the workspace of the given or already-set project fails with
ConflictError. -/
def applyOwnership (s : Store) (base : Item) (u : ItemUpdate) :
    Except DomainError Item :=
  match u.project with
  | some pid =>
    match findProject s pid with
    | none => Except.error DomainError.NotFoundError
    | some p =>
      match u.workspace with
      | none =>
        Except.ok { base with
          project_id := some pid, workspace_id := some p.workspace_id }
      | some wid =>
        if wid = p.workspace_id then
          Except.ok { base with
            project_id := some pid, workspace_id := some wid }
        else Except.error DomainError.ConflictError
  | none =>
    match u.workspace with
    | none => Except.ok base
    | some wid =>
      match base.project_id with
      | none => Except.ok { base with workspace_id := some wid }
      | some pid0 =>
        match findProject s pid0 with
        | none => Except.error DomainError.NotFoundError
        | some p0 =>
          if wid = p0.workspace_id then
            Except.ok { base with workspace_id := some wid }
          else Except.error DomainError.ConflictError

/-- Replace the item carrying the given identifier. -/
def replaceItem (iid : Nat) (it2 : Item) (s : Store) : Store :=
  { s with items := s.items.map (fun x => if x.id = iid then it2 else x) }

/-- Modelled from the spec: partial update of an item — empty title is
rejected, ownership conflicts abort with ConflictError before any
store mutation, otherwise the stored item is replaced. -/
def update_item (iid : Nat) (u : ItemUpdate) (s : Store) :
    Except DomainError Store :=
  match s.items.find? (fun it => it.id == iid) with
  | none => Except.error DomainError.NotFoundError
  | some it =>
    if u.title = some "" then Except.error DomainError.ValidationError
    else
      match applyOwnership s (applyBasic it u) u with
      | Except.error e => Except.error e
      | Except.ok it2 => Except.ok (replaceItem iid it2 s)

/-- Modelled from the spec: permanent removal of an item. -/
def delete_item (iid : Nat) (s : Store) : Store :=
  { s with items := s.items.filter (fun it => decide (it.id ≠ iid)) }

/-- The ownership invariant of the data model: an item with a
project_id always has a workspace_id equal to the workspace of that
project. -/
def Inv (s : Store) : Prop :=
  ∀ it ∈ s.items, ∀ pid, it.project_id = some pid →
    ∃ p, findProject s pid = some p ∧ it.workspace_id = some p.workspace_id

/-! ## Interaction state machine (Modelled from the spec: spec section
4.4, SPEC.md Weekly View and Backlog View navigation). -/

/-- Directional navigation events. -/
inductive NavDir where
  | left
  | right
  | up
  | down
deriving DecidableEq

/-- The base views of the interaction state machine: the weekly board
with a focused absolute day and row, and the fullscreen backlog with a
focused column (0 to 3) and row; each carries the orthogonal optional
selection. -/
inductive UiState where
  | weeklyV (focused_date : Int) (focused_row : Nat) (selection : Option Nat)
  | backlogV (focused_column : Nat) (focused_row : Nat) (selection : Option Nat)
deriving DecidableEq

/-- Offset of the configured first weekday inside the absolute day
numbering. -/
def weekStartOffset : WeekStart → Int
  | .Sunday => 0
  | .Monday => 1

/-- Position of a day inside its week, 0 to 6, relative to the
configured week start. -/
def weekday (o d : Int) : Int :=
  (d - o) % 7

/-- Index of the week a day belongs to, relative to the configured
week start. -/
def weekIndex (o d : Int) : Int :=
  (d - o) / 7

/-- Modelled from the spec: cursor movement in a base view — in the
weekly view horizontal movement steps one day so the cursor wraps
into the adjacent week at a week edge, in the backlog view horizontal
movement wraps across the 4 columns; vertical movement wraps across
the rows of the focused column. -/
def navigate (rows : Nat) (dir : NavDir) : UiState → UiState
  | .weeklyV date row sel =>
    match dir with
    | .left => .weeklyV (date - 1) row sel
    | .right => .weeklyV (date + 1) row sel
    | .up => .weeklyV date ((row + rows - 1) % rows) sel
    | .down => .weeklyV date ((row + 1) % rows) sel
  | .backlogV c row sel =>
    match dir with
    | .left => .backlogV ((c + 3) % 4) row sel
    | .right => .backlogV ((c + 1) % 4) row sel
    | .up => .backlogV c ((row + rows - 1) % rows) sel
    | .down => .backlogV c ((row + 1) % rows) sel

/-- The domain call requested by a directional event while a
selection is active. -/
inductive Effect where
  | moveItemEff (dir : NavDir)
  | reorderItemEff (dir : NavDir)
deriving DecidableEq

/-- The selection attached to a base view. -/
def selectionOf : UiState → Option Nat
  | .weeklyV _ _ sel => sel
  | .backlogV _ _ sel => sel

/-- Modelled from the spec: the transition of a base view on a
directional event — with no active selection the cursor moves, with a
selection the event instead requests a move or reorder of the
selected item. -/
def handleDirection (rows : Nat) (dir : NavDir) (st : UiState) :
    UiState × Option Effect :=
  match selectionOf st with
  | some _ =>
    (st, some (match dir with
      | .up => Effect.reorderItemEff dir
      | .down => Effect.reorderItemEff dir
      | .left => Effect.moveItemEff dir
      | .right => Effect.moveItemEff dir))
  | none => (navigate rows dir st, none)

/-- A sample project used by concrete witnesses. -/
def sampleProject : Project :=
  { id := 10, name := "Q1", workspace_id := 20, status := ProjStatus.Pending }

/-- A sample item owned by the sample project. -/
def projItem : Item :=
  { id := 3
    title := "Standup"
    status := Status.Pending
    scheduled_for := some 5
    order_index := 0
    backlog_column := 0
    notes := none
    workspace_id := some 20
    project_id := some 10 }

/-- A store holding the sample project and its item. -/
def projStore : Store :=
  { items := [projItem], projects := [sampleProject], workspaces := [] }

/-- An update assigning a workspace that conflicts with the workspace
of the already-set project of the sample item. -/
def conflictUpdate : ItemUpdate :=
  { title := none
    scheduled_for := none
    notes := none
    workspace := some 99
    project := none }

/-- A sample Backlog item used by concrete witnesses. -/
def backlogSampleItem : Item :=
  { id := 1
    title := "Learn piano"
    status := Status.Pending
    scheduled_for := none
    order_index := 0
    backlog_column := 0
    notes := none
    workspace_id := none
    project_id := none }

/-- A sample store holding one Backlog item. -/
def backlogSampleStore : Store :=
  { items := [backlogSampleItem], projects := [], workspaces := [] }

/-- A store holding two items that share the title Standup, used to
witness ambiguous resolution. -/
def ambiguousStore : Store :=
  { items :=
      [{ backlogSampleItem with id := 1, title := "Standup" },
       { backlogSampleItem with id := 2, title := "Standup" }]
    projects := []
    workspaces := [] }

/-- The item table after a rollover: kept items first, then the
rescheduled overdue items in ascending order_index order, renumbered
below the current Pending maximum of today. -/
def rolledItems (today : Nat) (s : Store) : List Item :=
  s.items.filter (fun it => !overdue today it)
    ++ assignFrom today (todaysMaxOrder today s.items)
      (List.insertionSort idxLE (s.items.filter (overdue today)))

/-- Modelled from the spec: the daily rollover — select the overdue
Pending scheduled items, in ascending order_index order, set their
scheduled date to today and append them below the existing Pending
ordering of today; everything else is kept unchanged. -/
def rollover (today : Nat) (s : Store) : Store :=
  { s with items := rolledItems today s }

end Mach

namespace Mach

/-! ## Rollover lemmas. -/

/-- Every item produced by assignFrom is scheduled for today and keeps
the status, project and workspace of a source item. -/
theorem assignFrom_mem {today : Nat} :
    ∀ {b : Int} {l : List Item} {it : Item}, it ∈ assignFrom today b l →
      it.scheduled_for = some today
      ∧ ∃ src, src ∈ l ∧ it.status = src.status
        ∧ it.project_id = src.project_id ∧ it.workspace_id = src.workspace_id := by
  intro b l
  induction l generalizing b with
  | nil => intro it h; cases h
  | cons a l ih =>
    intro it h
    rcases List.mem_cons.mp h with h | h
    · subst h
      exact ⟨rfl, a, List.mem_cons_self a l, rfl, rfl, rfl⟩
    · obtain ⟨hs, src, hsrc, h1, h2, h3⟩ := ih h
      exact ⟨hs, src, List.mem_cons_of_mem _ hsrc, h1, h2, h3⟩

/-- An item scheduled for today is not overdue today. -/
theorem overdue_false_of_today {today : Nat} {it : Item}
    (h : it.scheduled_for = some today) : overdue today it = false := by
  simp [overdue, h, Nat.lt_irrefl]

/-- Exempt items (Backlog or Done) never match the overdue predicate. -/
theorem exempt_not_overdue (today : Nat) (it : Item)
    (h : exempt it = true) : overdue today it = false := by
  cases hst : it.status <;> cases hsf : it.scheduled_for <;>
    simp_all [exempt, overdue, isDone, isPending]

/-- After a rollover for today, no item of the store is overdue. -/
theorem rollover_members_not_overdue (today : Nat) (s : Store) :
    ∀ it ∈ (rollover today s).items, overdue today it = false := by
  intro it hit
  rw [show (rollover today s).items = rolledItems today s from rfl,
    rolledItems] at hit
  rcases List.mem_append.mp hit with hk | hm
  · have := (List.mem_filter.mp hk).2
    simpa using this
  · exact overdue_false_of_today (assignFrom_mem hm).1

/-- Helper: the rescheduled block of a rollover contains no exempt
item — every member is Pending and scheduled for today. -/
theorem assignFrom_filter_exempt (today : Nat) (s : Store) :
    (assignFrom today (todaysMaxOrder today s.items)
      (List.insertionSort idxLE (s.items.filter (overdue today)))).filter
        exempt = [] := by
  refine List.filter_eq_nil_iff.mpr (fun a ha => ?_)
  obtain ⟨hs, src, hsrc, hst, _, _⟩ := assignFrom_mem ha
  have hsrc2 : src ∈ s.items.filter (overdue today) :=
    (List.mem_insertionSort idxLE).mp hsrc
  have hov : overdue today src = true := (List.mem_filter.mp hsrc2).2
  have hp : isPending src.status = true := by
    rw [overdue, Bool.and_eq_true] at hov
    exact hov.1
  cases hstc : src.status with
  | Pending => simp [exempt, hs, hst, hstc, isDone]
  | Done => rw [hstc] at hp; simp [isPending] at hp

/-- Helper: filtering the kept block of a rollover for exempt items
gives exactly the exempt items of the original store. -/
theorem keep_filter_exempt (today : Nat) (s : Store) :
    ((s.items.filter (fun it => !overdue today it)).filter exempt)
      = s.items.filter exempt := by
  rw [List.filter_filter]
  refine List.filter_congr (fun a _ => ?_)
  cases hexp : exempt a
  · simp
  · simp [exempt_not_overdue today a hexp]

/-- C1: rollover is idempotent — a second run with the same current
date returns the same store, because no item matches the overdue
predicate after the first run — and rollover never modifies Backlog
items (scheduled_for absent) or Done items: the exempt items of the
store are preserved exactly. -/
theorem rollover_idempotent (today : Nat) (s : Store) :
    rollover today (rollover today s) = rollover today s
    ∧ (rollover today s).items.filter exempt = s.items.filter exempt
    ∧ (rollover today s).items.filter (overdue today) = [] := by
  have hno := rollover_members_not_overdue today s
  have h2 : (rollover today s).items.filter (overdue today) = [] :=
    List.filter_eq_nil_iff.mpr (fun a ha => by simp [hno a ha])
  have h1 : (rollover today s).items.filter (fun it => !overdue today it)
      = (rollover today s).items :=
    List.filter_eq_self.mpr (fun a ha => by simp [hno a ha])
  refine ⟨?_, ?_, h2⟩
  · show { rollover today s with
      items := rolledItems today (rollover today s) } = rollover today s
    rw [rolledItems, h1, h2]
    rw [show List.insertionSort idxLE ([] : List Item) = [] from rfl]
    rw [show ∀ b : Int, assignFrom today b [] = [] from fun _ => rfl]
    rw [List.append_nil]
  · show (rolledItems today s).filter exempt = s.items.filter exempt
    rw [rolledItems, List.filter_append, assignFrom_filter_exempt,
      List.append_nil, keep_filter_exempt]

/-- C2: for every filter, the sequence returned by list_items is
partitioned with all Pending items before all Done items, and within
each status partition the items are sorted by ascending order_index,
regardless of the numeric order_index values of Done items. -/
theorem list_items_partitioned (f : ListFilter) (s : Store) :
    (list_items f s).Pairwise (fun a b =>
      (a.status = Status.Done → b.status = Status.Done)
      ∧ (a.status = b.status → a.order_index ≤ b.order_index)) := by
  have hs := List.sorted_insertionSort itemLE (s.items.filter (matchesFilter f))
  refine hs.imp ?_
  intro a b hab
  unfold itemLE at hab
  constructor
  · intro ha
    cases hb : b.status with
    | Done => rfl
    | Pending =>
      rcases hab with h | ⟨h, _⟩ <;> rw [ha, hb] at h <;> simp [statusRank] at h
  · intro hst
    rcases hab with h | ⟨_, h⟩
    · rw [hst] at h
      exact absurd h (lt_irrefl _)
    · exact h

/-- C3: completing a Backlog item sets status to Done and
scheduled_for to today; a subsequent reopen sets status back to
Pending but leaves scheduled_for unchanged, and in general reopen
never changes any scheduled date. -/
theorem complete_backlog_reopen_keeps_date (today : Nat) (it : Item)
    (s : Store) (hmem : it ∈ s.items) (hb : it.scheduled_for = none) :
    ({ it with status := Status.Done, scheduled_for := some today }
      ∈ (complete today it.id s).items)
    ∧ ({ it with status := Status.Pending, scheduled_for := some today }
      ∈ (reopen it.id (complete today it.id s)).items)
    ∧ ∀ (s2 : Store) (iid : Nat),
        (reopen iid s2).items.map Item.scheduled_for
          = s2.items.map Item.scheduled_for := by
  have hc : completeItem today it.id it
      = { it with status := Status.Done, scheduled_for := some today } := by
    simp [completeItem, hb]
  have h1 : ({ it with status := Status.Done, scheduled_for := some today } : Item)
      ∈ (complete today it.id s).items := by
    have := List.mem_map_of_mem (completeItem today it.id) hmem
    rwa [hc] at this
  refine ⟨h1, ?_, ?_⟩
  · have := List.mem_map_of_mem (reopenItem it.id) h1
    rwa [show reopenItem it.id
        { it with status := Status.Done, scheduled_for := some today }
        = { it with status := Status.Pending, scheduled_for := some today } from
      by simp [reopenItem]] at this
  · intro s2 iid
    show (s2.items.map (reopenItem iid)).map Item.scheduled_for
      = s2.items.map Item.scheduled_for
    rw [List.map_map]
    refine List.map_congr_left (fun a _ => ?_)
    by_cases h : a.id = iid <;> simp [reopenItem, h]

/-- Witness for C3 at a concrete Backlog item and store. -/
theorem complete_backlog_reopen_keeps_date_witness :
    ({ backlogSampleItem with status := Status.Done, scheduled_for := some 7 }
      ∈ (complete 7 backlogSampleItem.id backlogSampleStore).items)
    ∧ ({ backlogSampleItem with status := Status.Pending, scheduled_for := some 7 }
      ∈ (reopen backlogSampleItem.id
          (complete 7 backlogSampleItem.id backlogSampleStore)).items)
    ∧ (reopen 1 backlogSampleStore).items.map Item.scheduled_for
        = backlogSampleStore.items.map Item.scheduled_for := by
  have h := complete_backlog_reopen_keeps_date 7 backlogSampleItem
    backlogSampleStore (List.mem_cons_self _ _) rfl
  exact ⟨h.1, h.2.1, h.2.2 backlogSampleStore 1⟩

/-- Helper: a fold of min over a list bounds every member from
below. -/
theorem foldr_min_le (l : List Int) (x : Int) (hx : x ∈ l) :
    l.foldr min 0 ≤ x := by
  induction l with
  | nil => cases hx
  | cons a l ih =>
    rcases List.mem_cons.mp hx with rfl | hx
    · exact min_le_left _ _
    · exact le_trans (min_le_right _ _) (ih hx)

/-- C4: a successful add_item prepends a Pending item of the target
column whose order_index is strictly below the order_index of every
item already in that column, so across any sequence of adds into one
column the most recent item has the strictly lowest order_index among
the Pending items there. -/
theorem add_item_newest_on_top (title : String) (t : Target)
    (ws : Option Nat) (nid : Nat) (s : Store) (h : title ≠ "") :
    ∃ it s2, add_item title t ws none nid s = Except.ok (it, s2)
      ∧ s2.items = it :: s.items
      ∧ inColumn t it = true
      ∧ isPending it.status = true
      ∧ ∀ o ∈ s.items, inColumn t o = true → it.order_index < o.order_index := by
  refine ⟨newItem title t ws none nid s.items,
    { s with items := newItem title t ws none nid s.items :: s.items },
    ?_, rfl, ?_, rfl, ?_⟩
  · simp only [add_item]
    rw [if_neg h]
    rfl
  · cases t <;> simp [inColumn, newItem]
  · intro o ho hcol
    have hmem : o.order_index
        ∈ (s.items.filter (inColumn t)).map (fun it => it.order_index) :=
      List.mem_map_of_mem _ (List.mem_filter.mpr ⟨ho, hcol⟩)
    have hmin := foldr_min_le _ _ hmem
    show columnMinOrder t s.items - 1 < o.order_index
    unfold columnMinOrder
    omega

/-- Witness for C4: adding into an occupied backlog column lands
strictly above the existing item. -/
theorem add_item_newest_on_top_witness :
    ∃ it s2, add_item "Buy milk" (Target.backlog 0) none none 2
        backlogSampleStore = Except.ok (it, s2)
      ∧ s2.items = it :: backlogSampleStore.items
      ∧ inColumn (Target.backlog 0) it = true
      ∧ isPending it.status = true
      ∧ ∀ o ∈ backlogSampleStore.items, inColumn (Target.backlog 0) o = true →
          it.order_index < o.order_index :=
  add_item_newest_on_top "Buy milk" (Target.backlog 0) none 2
    backlogSampleStore (by decide)

/-- C6: add_item with an empty title returns ValidationError and
produces no new store, and with any non-empty title it returns the
created item together with the store extended by exactly that item. -/
theorem add_item_validates_title (t : Target) (ws pj : Option Nat)
    (nid : Nat) (s : Store) :
    add_item "" t ws pj nid s = Except.error DomainError.ValidationError
    ∧ ∀ title : String, title ≠ "" →
        ∃ it s2, add_item title t none none nid s = Except.ok (it, s2)
          ∧ it.title = title ∧ s2.items = it :: s.items := by
  constructor
  · simp [add_item]
  · intro title h
    refine ⟨newItem title t none none nid s.items,
      { s with items := newItem title t none none nid s.items :: s.items },
      ?_, rfl, rfl⟩
    simp only [add_item]
    rw [if_neg h]
    rfl

/-- Witness for C6: the empty title is rejected, a non-empty one is
created. -/
theorem add_item_validates_title_witness :
    add_item "" (Target.date 5) none none 9 backlogSampleStore
      = Except.error DomainError.ValidationError
    ∧ ∃ it s2, add_item "Standup" (Target.date 5) none none 9
          backlogSampleStore = Except.ok (it, s2)
        ∧ it.title = "Standup" ∧ s2.items = it :: backlogSampleStore.items :=
  ⟨(add_item_validates_title (Target.date 5) none none 9 backlogSampleStore).1,
    (add_item_validates_title (Target.date 5) none none 9
      backlogSampleStore).2 "Standup" (by decide)⟩

/-- C5: for a reference that is not an identifier, resolution is a
trichotomy on the number of title matches — zero gives NotFoundError,
exactly one resolves to that identity, two or more give
AmbiguousReferenceError with the count while the store is returned
unchanged, so the resolver never picks one of several matches. -/
theorem resolver_trichotomy (today : Nat) (ref : String) (s : Store)
    (hid : parseId ref = none) :
    (titleMatches ref s.items = [] →
      resolve_item ref s.items = Except.error DomainError.NotFoundError
      ∧ done_command today ref s = (s, some DomainError.NotFoundError))
    ∧ (∀ it, titleMatches ref s.items = [it] →
      resolve_item ref s.items = Except.ok it.id
      ∧ done_command today ref s = (complete today it.id s, none))
    ∧ (2 ≤ (titleMatches ref s.items).length →
      resolve_item ref s.items
        = Except.error
          (DomainError.AmbiguousReferenceError (titleMatches ref s.items).length)
      ∧ done_command today ref s
        = (s, some
          (DomainError.AmbiguousReferenceError (titleMatches ref s.items).length))) := by
  have hres : resolve_item ref s.items = resolveByTitle ref s.items := by
    simp [resolve_item, hid]
  refine ⟨?_, ?_, ?_⟩
  · intro h0
    have h : resolveByTitle ref s.items = Except.error DomainError.NotFoundError := by
      unfold resolveByTitle
      rw [h0]
    rw [hres, h]
    exact ⟨rfl, by simp [done_command, hres, h]⟩
  · intro it h1
    have h : resolveByTitle ref s.items = Except.ok it.id := by
      unfold resolveByTitle
      rw [h1]
    rw [hres, h]
    exact ⟨rfl, by simp [done_command, hres, h]⟩
  · intro h2
    cases hm : titleMatches ref s.items with
    | nil => rw [hm] at h2; simp at h2
    | cons a l =>
      cases l with
      | nil => rw [hm] at h2; simp at h2
      | cons b l2 =>
        have h : resolveByTitle ref s.items
            = Except.error
              (DomainError.AmbiguousReferenceError (a :: b :: l2).length) := by
          unfold resolveByTitle
          rw [hm]
        rw [hres, h]
        exact ⟨rfl, by simp [done_command, hres, h]⟩

/-- Witness for C5: two items titled Standup make done fail with the
ambiguity error and leave the store untouched. -/
theorem resolver_trichotomy_witness :
    resolve_item "Standup" ambiguousStore.items
      = Except.error
        (DomainError.AmbiguousReferenceError
          (titleMatches "Standup" ambiguousStore.items).length)
    ∧ done_command 3 "Standup" ambiguousStore
      = (ambiguousStore, some
        (DomainError.AmbiguousReferenceError
          (titleMatches "Standup" ambiguousStore.items).length)) :=
  (resolver_trichotomy 3 "Standup" ambiguousStore (by decide)).2.2 (by decide)

/-! ## Ownership invariant preservation lemmas. -/

/-- completeItem leaves ownership fields untouched. -/
theorem completeItem_ownership (today iid : Nat) (x : Item) :
    (completeItem today iid x).project_id = x.project_id
    ∧ (completeItem today iid x).workspace_id = x.workspace_id := by
  by_cases h : x.id = iid <;> simp [completeItem, h]

/-- reopenItem leaves ownership fields untouched. -/
theorem reopenItem_ownership (iid : Nat) (x : Item) :
    (reopenItem iid x).project_id = x.project_id
    ∧ (reopenItem iid x).workspace_id = x.workspace_id := by
  by_cases h : x.id = iid <;> simp [reopenItem, h]

/-- complete preserves the ownership invariant. -/
theorem Inv_complete (today iid : Nat) (s : Store) (h : Inv s) :
    Inv (complete today iid s) := by
  intro x hx pid hpid
  have hx2 : x ∈ s.items.map (completeItem today iid) := hx
  obtain ⟨y, hy, hxy⟩ := List.mem_map.mp hx2
  subst hxy
  rw [(completeItem_ownership today iid y).1] at hpid
  obtain ⟨p, hfp, hw⟩ := h y hy pid hpid
  exact ⟨p, hfp, by rw [(completeItem_ownership today iid y).2]; exact hw⟩

/-- reopen preserves the ownership invariant. -/
theorem Inv_reopen (iid : Nat) (s : Store) (h : Inv s) :
    Inv (reopen iid s) := by
  intro x hx pid hpid
  have hx2 : x ∈ s.items.map (reopenItem iid) := hx
  obtain ⟨y, hy, hxy⟩ := List.mem_map.mp hx2
  subst hxy
  rw [(reopenItem_ownership iid y).1] at hpid
  obtain ⟨p, hfp, hw⟩ := h y hy pid hpid
  exact ⟨p, hfp, by rw [(reopenItem_ownership iid y).2]; exact hw⟩

/-- delete_item preserves the ownership invariant. -/
theorem Inv_delete (iid : Nat) (s : Store) (h : Inv s) :
    Inv (delete_item iid s) := by
  intro x hx pid hpid
  have hx2 : x ∈ s.items.filter (fun it => decide (it.id ≠ iid)) := hx
  exact h x (List.mem_filter.mp hx2).1 pid hpid

/-- rollover preserves the ownership invariant. -/
theorem Inv_rollover (today : Nat) (s : Store) (h : Inv s) :
    Inv (rollover today s) := by
  intro x hx pid hpid
  rw [show (rollover today s).items = rolledItems today s from rfl,
    rolledItems] at hx
  rcases List.mem_append.mp hx with hk | hm
  · exact h x (List.mem_filter.mp hk).1 pid hpid
  · obtain ⟨_, src, hsrc, _, hpr, hws⟩ := assignFrom_mem hm
    have hsrc2 : src ∈ s.items :=
      (List.mem_filter.mp ((List.mem_insertionSort idxLE).mp hsrc)).1
    rw [hpr] at hpid
    obtain ⟨p, hfp, hw⟩ := h src hsrc2 pid hpid
    exact ⟨p, hfp, by rw [hws]; exact hw⟩

/-- add_item preserves the ownership invariant. -/
theorem Inv_add (title : String) (t : Target) (ws pj : Option Nat)
    (nid : Nat) (s : Store) (it : Item) (s2 : Store) (h : Inv s)
    (hok : add_item title t ws pj nid s = Except.ok (it, s2)) : Inv s2 := by
  unfold add_item at hok
  by_cases ht : title = ""
  · rw [if_pos ht] at hok; cases hok
  · rw [if_neg ht] at hok
    cases hpj : pj with
    | none =>
      rw [hpj] at hok
      simp only [] at hok
      unfold addOk at hok
      injection hok with h2
      injection h2 with ha hb
      subst ha
      subst hb
      intro x hx pid hpid
      rcases List.mem_cons.mp hx with rfl | hx2
      · simp [newItem] at hpid
      · exact h x hx2 pid hpid
    | some pid1 =>
      rw [hpj] at hok
      simp only [] at hok
      cases hfp : findProject s pid1 with
      | none => rw [hfp] at hok; cases hok
      | some p =>
        rw [hfp] at hok
        simp only [] at hok
        cases hws : ws with
        | none =>
          rw [hws] at hok
          simp only [] at hok
          unfold addOk at hok
          injection hok with h2
          injection h2 with ha hb
          subst ha
          subst hb
          intro x hx pid hpid
          rcases List.mem_cons.mp hx with rfl | hx2
          · have hpe : pid1 = pid := by simpa [newItem] using hpid
            subst hpe
            exact ⟨p, hfp, by simp [newItem]⟩
          · exact h x hx2 pid hpid
        | some wid =>
          rw [hws] at hok
          simp only [] at hok
          by_cases hw : wid = p.workspace_id
          · rw [if_pos hw] at hok
            unfold addOk at hok
            injection hok with h2
            injection h2 with ha hb
            subst ha
            subst hb
            intro x hx pid hpid
            rcases List.mem_cons.mp hx with rfl | hx2
            · have hpe : pid1 = pid := by simpa [newItem] using hpid
              subst hpe
              exact ⟨p, hfp, by simp [newItem, hw]⟩
            · exact h x hx2 pid hpid
          · rw [if_neg hw] at hok; cases hok

/-- A successful applyOwnership yields an item satisfying the
pointwise ownership property, provided the base item satisfied it. -/
theorem applyOwnership_ok {s : Store} {base it2 : Item} {u : ItemUpdate}
    (hbase : ∀ pid, base.project_id = some pid →
      ∃ p, findProject s pid = some p ∧ base.workspace_id = some p.workspace_id)
    (hok : applyOwnership s base u = Except.ok it2) :
    ∀ pid, it2.project_id = some pid →
      ∃ p, findProject s pid = some p ∧ it2.workspace_id = some p.workspace_id := by
  intro pid hpid
  unfold applyOwnership at hok
  cases hup : u.project with
  | some pid1 =>
    rw [hup] at hok
    simp only [] at hok
    cases hfp : findProject s pid1 with
    | none => rw [hfp] at hok; cases hok
    | some p =>
      rw [hfp] at hok
      simp only [] at hok
      cases huw : u.workspace with
      | none =>
        rw [huw] at hok
        simp only [] at hok
        injection hok with h2
        subst h2
        have hpe : pid1 = pid := by simpa using hpid
        subst hpe
        exact ⟨p, hfp, rfl⟩
      | some wid =>
        rw [huw] at hok
        simp only [] at hok
        by_cases hw : wid = p.workspace_id
        · rw [if_pos hw] at hok
          injection hok with h2
          subst h2
          have hpe : pid1 = pid := by simpa using hpid
          subst hpe
          exact ⟨p, hfp, by simp [hw]⟩
        · rw [if_neg hw] at hok; cases hok
  | none =>
    rw [hup] at hok
    simp only [] at hok
    cases huw : u.workspace with
    | none =>
      rw [huw] at hok
      simp only [] at hok
      injection hok with h2
      subst h2
      exact hbase pid hpid
    | some wid =>
      rw [huw] at hok
      simp only [] at hok
      cases hbp : base.project_id with
      | none =>
        rw [hbp] at hok
        simp only [] at hok
        injection hok with h2
        subst h2
        simp [hbp] at hpid
      | some pid0 =>
        rw [hbp] at hok
        simp only [] at hok
        cases hfp : findProject s pid0 with
        | none => rw [hfp] at hok; cases hok
        | some p0 =>
          rw [hfp] at hok
          simp only [] at hok
          by_cases hw : wid = p0.workspace_id
          · rw [if_pos hw] at hok
            injection hok with h2
            subst h2
            have hpe : pid0 = pid := by simpa [hbp] using hpid
            subst hpe
            exact ⟨p0, hfp, by simp [hw]⟩
          · rw [if_neg hw] at hok; cases hok

/-- update_item preserves the ownership invariant. -/
theorem Inv_update (iid : Nat) (u : ItemUpdate) (s s2 : Store)
    (h : Inv s) (hok : update_item iid u s = Except.ok s2) : Inv s2 := by
  unfold update_item at hok
  cases hfind : s.items.find? (fun it => it.id == iid) with
  | none => rw [hfind] at hok; cases hok
  | some it0 =>
    rw [hfind] at hok
    simp only [] at hok
    by_cases ht : u.title = some ""
    · rw [if_pos ht] at hok; cases hok
    · rw [if_neg ht] at hok
      cases hap : applyOwnership s (applyBasic it0 u) u with
      | error e => rw [hap] at hok; cases hok
      | ok it2 =>
        rw [hap] at hok
        simp only [] at hok
        injection hok with h2
        subst h2
        intro x hx pid hpid
        have hx2 : x ∈ s.items.map (fun y => if y.id = iid then it2 else y) := hx
        obtain ⟨y, hy, hxy⟩ := List.mem_map.mp hx2
        have hmem0 : it0 ∈ s.items := List.mem_of_find?_eq_some hfind
        have hbase : ∀ pidd, (applyBasic it0 u).project_id = some pidd →
            ∃ p, findProject s pidd = some p
              ∧ (applyBasic it0 u).workspace_id = some p.workspace_id := by
          intro pidd hp
          exact h it0 hmem0 pidd hp
        have hit2 := applyOwnership_ok hbase hap
        by_cases hid : y.id = iid
        · rw [if_pos hid] at hxy
          subst hxy
          exact hit2 pid hpid
        · rw [if_neg hid] at hxy
          subst hxy
          exact h y hy pid hpid

/-- C7: every domain operation preserves the invariant that an item
with a project_id has a workspace_id equal to the workspace of that
project; in update_item, assigning a project without a workspace
inherits the project workspace, and assigning a workspace that
differs from the workspace of the already-set project fails with
ConflictError, producing no updated store. -/
theorem ops_preserve_project_workspace (today iid : Nat) (u : ItemUpdate)
    (s : Store) :
    (Inv s → Inv (complete today iid s))
    ∧ (Inv s → Inv (reopen iid s))
    ∧ (Inv s → Inv (delete_item iid s))
    ∧ (Inv s → Inv (rollover today s))
    ∧ (Inv s → ∀ title t ws pj nid it s2,
        add_item title t ws pj nid s = Except.ok (it, s2) → Inv s2)
    ∧ (Inv s → ∀ s2, update_item iid u s = Except.ok s2 → Inv s2)
    ∧ (∀ it0 pid p, s.items.find? (fun x => x.id == iid) = some it0 →
        u.title ≠ some "" → u.project = some pid → u.workspace = none →
        findProject s pid = some p →
        update_item iid u s = Except.ok (replaceItem iid
          { applyBasic it0 u with
            project_id := some pid,
            workspace_id := some p.workspace_id } s))
    ∧ (∀ it0 pid p wid, s.items.find? (fun x => x.id == iid) = some it0 →
        u.title ≠ some "" → u.project = none → u.workspace = some wid →
        it0.project_id = some pid → findProject s pid = some p →
        wid ≠ p.workspace_id →
        update_item iid u s = Except.error DomainError.ConflictError) := by
  refine ⟨Inv_complete today iid s, Inv_reopen iid s, Inv_delete iid s,
    Inv_rollover today s,
    fun h title t ws pj nid it s2 hok => Inv_add title t ws pj nid s it s2 h hok,
    fun h s2 hok => Inv_update iid u s s2 h hok, ?_, ?_⟩
  · intro it0 pid p hfind ht hup huw hfp
    have hap : applyOwnership s (applyBasic it0 u) u
        = Except.ok { applyBasic it0 u with
          project_id := some pid, workspace_id := some p.workspace_id } := by
      unfold applyOwnership
      rw [hup]
      simp only []
      rw [hfp]
      simp only []
      rw [huw]
    unfold update_item
    rw [hfind]
    simp only []
    rw [if_neg ht]
    rw [hap]
  · intro it0 pid p wid hfind ht hup huw hbp hfp hw
    have hap : applyOwnership s (applyBasic it0 u) u
        = Except.error DomainError.ConflictError := by
      unfold applyOwnership
      rw [hup]
      simp only []
      rw [huw]
      simp only []
      have hbp2 : (applyBasic it0 u).project_id = some pid := hbp
      rw [hbp2]
      simp only []
      rw [hfp]
      simp only []
      rw [if_neg hw]
    unfold update_item
    rw [hfind]
    simp only []
    rw [if_neg ht]
    rw [hap]

/-- Witness for C7: assigning workspace 99 to the sample item, whose
project lives in workspace 20, is rejected with ConflictError. -/
theorem ops_preserve_project_workspace_witness :
    update_item 3 conflictUpdate projStore
      = Except.error DomainError.ConflictError :=
  (ops_preserve_project_workspace 0 3 conflictUpdate projStore).2.2.2.2.2.2.2
    projItem 10 sampleProject 99 rfl (by decide) rfl rfl rfl rfl (by decide)

/-- C8: in a base view with no active selection a directional event
moves the cursor with wraparound — in the weekly view, left from the
first weekday lands on the last weekday of the previous week and
right from the last weekday lands on the first weekday of the next
week; in the backlog view horizontal movement wraps across the 4
columns and the view never changes. -/
theorem base_view_nav_wraparound (w : WeekStart) (rows : Nat) (date : Int)
    (row : Nat) (c : Nat) :
    (handleDirection rows NavDir.left (UiState.weeklyV date row none)
      = (UiState.weeklyV (date - 1) row none, none))
    ∧ (weekday (weekStartOffset w) date = 0 →
      weekday (weekStartOffset w) (date - 1) = 6
      ∧ weekIndex (weekStartOffset w) (date - 1)
        = weekIndex (weekStartOffset w) date - 1)
    ∧ (handleDirection rows NavDir.right (UiState.weeklyV date row none)
      = (UiState.weeklyV (date + 1) row none, none))
    ∧ (weekday (weekStartOffset w) date = 6 →
      weekday (weekStartOffset w) (date + 1) = 0
      ∧ weekIndex (weekStartOffset w) (date + 1)
        = weekIndex (weekStartOffset w) date + 1)
    ∧ (handleDirection rows NavDir.left (UiState.backlogV c row none)
      = (UiState.backlogV ((c + 3) % 4) row none, none)
      ∧ (c + 3) % 4 < 4 ∧ (c = 0 → (c + 3) % 4 = 3))
    ∧ (handleDirection rows NavDir.right (UiState.backlogV c row none)
      = (UiState.backlogV ((c + 1) % 4) row none, none)
      ∧ (c + 1) % 4 < 4 ∧ (c = 3 → (c + 1) % 4 = 0))
    ∧ (∀ dir : NavDir, ∃ c2 r2,
      handleDirection rows dir (UiState.backlogV c row none)
        = (UiState.backlogV c2 r2 none, none)) := by
  refine ⟨rfl, ?_, rfl, ?_, ⟨rfl, ?_, ?_⟩, ⟨rfl, ?_, ?_⟩, ?_⟩
  · intro h
    simp only [weekday, weekIndex] at h ⊢
    omega
  · intro h
    simp only [weekday, weekIndex] at h ⊢
    omega
  · omega
  · intro h
    subst h
    rfl
  · omega
  · intro h
    subst h
    rfl
  · intro dir
    cases dir <;> exact ⟨_, _, rfl⟩

/-- Witness for C8: with a Sunday week start, moving left from day 0
(a first weekday) lands on day -1, the last weekday of the previous
week. -/
theorem base_view_nav_wraparound_witness :
    weekday (weekStartOffset WeekStart.Sunday) (0 - 1) = 6
    ∧ weekIndex (weekStartOffset WeekStart.Sunday) (0 - 1)
      = weekIndex (weekStartOffset WeekStart.Sunday) 0 - 1 :=
  (base_view_nav_wraparound WeekStart.Sunday 1 0 0 0).2.1 (by decide)

/-! ## Theorems for the code-based claims C9 and C10. -/

/-- C9: under the teams permission rules, every permitted update leaves
creatorId and isDefault unchanged, and delete of a team is permitted
only for its creator and only when isDefault is false, so a default
team can never be deleted by any user. -/
theorem teams_perms_frame (a : Auth) (memberUserIds : List String)
    (data newData : TeamRow) :
    (teams.updateAllowed a memberUserIds data newData = true →
      newData.creatorId = data.creatorId ∧ newData.isDefault = data.isDefault)
    ∧ (teams.deleteAllowed a data = true →
      a.id = data.creatorId ∧ data.isDefault = false)
    ∧ (data.isDefault = true → teams.deleteAllowed a data = false) := by
  refine ⟨?_, ?_, ?_⟩
  · intro h
    simp only [teams.updateAllowed, Bool.and_eq_true, decide_eq_true_eq] at h
    exact ⟨h.1.2.symm, h.2.symm⟩
  · intro h
    simp only [teams.deleteAllowed, Bool.and_eq_true, decide_eq_true_eq,
      Bool.not_eq_true'] at h
    exact h
  · intro h
    simp [teams.deleteAllowed, h]

/-- Witness for C9: with a default team, delete is refused. -/
theorem teams_perms_frame_witness :
    ({ creatorId := "u1", isDefault := true, name := "home" } : TeamRow).isDefault = true
    ∧ teams.deleteAllowed { id := "u1", email := "a@b.c" }
        { creatorId := "u1", isDefault := true, name := "home" } = false := by
  refine ⟨rfl, ?_⟩
  exact (teams_perms_frame { id := "u1", email := "a@b.c" } []
    { creatorId := "u1", isDefault := true, name := "home" }
    { creatorId := "u1", isDefault := true, name := "home" }).2.2 rfl

/-- C10: every todo created through the public creation paths starts
incomplete: Todo.create writes done = false with the given text,
the earlier Todo.create writes done = false, and createTodo writes
done = false with date defaulting to the current time when no date is
supplied; for no input does a freshly created todo have done = true. -/
theorem created_todos_start_incomplete (text : String) (d : Option Nat)
    (now : Nat) (teamId : String) :
    (Todo.create text).done = false
    ∧ (Todo.create text).text = text
    ∧ (Todo.createV0 text now).done = false
    ∧ (Todo.createV0 text now).text = text
    ∧ (createTodo text d now teamId).done = false
    ∧ (createTodo text d now teamId).text = text
    ∧ (createTodo text none now teamId).date = some now := by
  refine ⟨rfl, rfl, rfl, rfl, rfl, rfl, rfl⟩

end Mach
